import Mathlib

/-!
Verification of the joke-fetch / notes-store screen (`src/App.js`).

The file shallowly embeds the interaction logic of `App.js`:

* The JavaScript runtime pieces the handlers rely on are modelled
  executably: `jsTrim` models `String.prototype.trim`, the `Json`
  inductive together with `Json.stringify` and `Json.parse` models the
  platform `JSON` object (`JSON.stringify` / `JSON.parse`).  The parser
  accepts exactly the JSON grammar, the full number production
  (`-? int frac? exp?`, no leading zeros) included; number values are
  modelled as exact rationals rather than IEEE-754 doubles, and `\uXXXX`
  escapes denote Unicode scalar values — the double rounding of extreme
  literals and the exponent-form switch-over of number printing are the
  only departures, and the persisted notes encoding (an array of
  strings) never meets them.
* Each asynchronous handler (`loadNotes`, `handleFetchJoke`,
  `handleAddNote`, `handleClearNotes`, `saveNotes`) becomes a total
  function from the pre-state to the post-state.  The outcome of each
  external effect (storage read / write / removal, HTTP fetch) is an
  explicit argument, so one function application describes one complete
  run of the handler under one fate of its awaited effects.
* React state hooks become fields of explicit state records
  (`JokeState`, `NotesState`); the storage slot under the fixed key
  `notes` is an `Option String` (absent or a stored blob).
-/

/-! ## JavaScript string trimming

`String.prototype.trim` removes the WhiteSpace and LineTerminator code
points of the ECMAScript specification from both ends. -/

/-- The ECMAScript WhiteSpace / LineTerminator code points removed by
`trim`: TAB, LF, VT, FF, CR, SP, NBSP, Ogham space mark, the Unicode
space separators U+2000–U+200A, LS, PS, NNBSP, MMSP, ideographic space
and the BOM. -/
def isJsWs (c : Char) : Bool :=
  c.toNat = 0x9 || c.toNat = 0xA || c.toNat = 0xB || c.toNat = 0xC ||
  c.toNat = 0xD || c.toNat = 0x20 || c.toNat = 0xA0 || c.toNat = 0x1680 ||
  (0x2000 ≤ c.toNat && c.toNat ≤ 0x200A) || c.toNat = 0x2028 ||
  c.toNat = 0x2029 || c.toNat = 0x202F || c.toNat = 0x205F ||
  c.toNat = 0x3000 || c.toNat = 0xFEFF

/-- Model of `String.prototype.trim`: drop JS whitespace from both ends. -/
def jsTrim (s : String) : String :=
  ⟨(((s.data.dropWhile isJsWs).reverse.dropWhile isJsWs).reverse : List Char)⟩

/-! ## The JSON value model -/

/-- JavaScript JSON values.  Numbers are modelled as exact rationals
(every JSON number literal denotes one); object members keep insertion
order. -/
inductive Json where
  | null : Json
  | bool : Bool → Json
  | num : Rat → Json
  | str : String → Json
  | arr : List Json → Json
  | obj : List (String × Json) → Json
deriving Repr

/-- Model of `Array.isArray`. -/
def Json.isArr : Json → Bool
  | .arr _ => true
  | _ => false

/-- JavaScript truthiness of a JSON value: `null`, `false`, `0` and the
empty string are falsy; every object and array is truthy. -/
def jsTruthy : Json → Bool
  | .null => false
  | .bool b => b
  | .num q => !(q == 0)
  | .str s => !(s == "")
  | .arr _ => true
  | .obj _ => true

/-! ### `JSON.stringify` -/

/-- Hexadecimal digit character (lowercase), as emitted inside `\u00--`
escapes by `JSON.stringify`. -/
def hexDigit (n : Nat) : Char :=
  if n < 10 then Char.ofNat (48 + n) else Char.ofNat (87 + n)

/-- How `JSON.stringify` emits one character of a string: `"` and `\`
are escaped, the control characters BS, TAB, LF, FF, CR get their
two-character escapes, the remaining control characters below U+0020
become `\u00--`, and every other character is emitted verbatim. -/
def encodeChar (c : Char) : List Char :=
  if c = '"' then ['\\', '"']
  else if c = '\\' then ['\\', '\\']
  else if c = '\x08' then ['\\', 'b']
  else if c = '\x09' then ['\\', 't']
  else if c = '\x0A' then ['\\', 'n']
  else if c = '\x0C' then ['\\', 'f']
  else if c = '\x0D' then ['\\', 'r']
  else if c.toNat < 0x20 then
    ['\\', 'u', '0', '0', hexDigit (c.toNat / 16), hexDigit (c.toNat % 16)]
  else [c]

/-- The body of a stringified JSON string (no surrounding quotes). -/
def encodeContent (cs : List Char) : List Char := cs.flatMap encodeChar

/-- A stringified JSON string, surrounding quotes included. -/
def encodeString (s : String) : List Char :=
  '"' :: (encodeContent s.data ++ ['"'])

/-- Decimal digits of the fractional part of `r / d`, one digit per
fuel step (a denominator produced by the JSON number parser divides a
power of ten, so `d` steps always suffice). -/
def fracDigitsList : Nat → Nat → Nat → List Char
  | 0, _, _ => []
  | _ + 1, 0, _ => []
  | fuel + 1, r, d =>
    Char.ofNat (48 + r * 10 / d) :: fracDigitsList fuel (r * 10 % d) d

/-- How `JSON.stringify` prints a number value, on the plain decimal
fragment: sign, integer part, and the fractional digits when there are
any (the switch-over to exponent form for extreme magnitudes is not
modelled; no claim meets it). -/
def encodeNum (q : Rat) : List Char :=
  let na := q.num.natAbs
  let sign : List Char := if q.num < 0 then ['-'] else []
  let frac : List Char :=
    if na % q.den = 0 then []
    else '.' :: fracDigitsList q.den (na % q.den) q.den
  sign ++ (toString (na / q.den)).data ++ frac

mutual

/-- Model of `JSON.stringify` as a character list (no whitespace is emitted,
matching the one-argument form used by `saveNotes`). -/
def encodeJson : Json → List Char
  | .null => "null".data
  | .bool b => (if b then "true" else "false").data
  | .num q => encodeNum q
  | .str s => encodeString s
  | .arr xs => '[' :: (encodeItems xs ++ [']'])
  | .obj ms => '{' :: (encodeMembers ms ++ ['}'])

/-- Comma-separated stringified array items. -/
def encodeItems : List Json → List Char
  | [] => []
  | [x] => encodeJson x
  | x :: xs => encodeJson x ++ ',' :: encodeItems xs

/-- Comma-separated stringified object members. -/
def encodeMembers : List (String × Json) → List Char
  | [] => []
  | [(k, v)] => encodeString k ++ ':' :: encodeJson v
  | (k, v) :: ms => encodeString k ++ ':' :: encodeJson v ++ ',' :: encodeMembers ms

end

/-- Model of `JSON.stringify`. -/
def Json.stringify (v : Json) : String := ⟨encodeJson v⟩

/-! ### `JSON.parse` -/

/-- The insignificant whitespace accepted between JSON tokens. -/
def isJsonWs (c : Char) : Bool :=
  c = ' ' || c = '\x09' || c = '\x0A' || c = '\x0D'

/-- Skip insignificant JSON whitespace. -/
def skipWs : List Char → List Char
  | [] => []
  | c :: rest => if isJsonWs c then skipWs rest else c :: rest

/-- Value of one hexadecimal digit character, if it is one. -/
def parseHex (c : Char) : Option Nat :=
  if '0' ≤ c ∧ c ≤ '9' then some (c.toNat - 48)
  else if 'a' ≤ c ∧ c ≤ 'f' then some (c.toNat - 87)
  else if 'A' ≤ c ∧ c ≤ 'F' then some (c.toNat - 55)
  else none

/-- Parse the body of a JSON string after the opening quote, returning
the decoded characters and the input remaining after the closing
quote. -/
def parseStringBody : List Char → Option (List Char × List Char)
  | [] => none
  | c :: rest =>
    if c = '"' then some ([], rest)
    else if c = '\\' then
      match rest with
      | [] => none
      | e :: rest2 =>
        if e = '"' then (parseStringBody rest2).map fun p => ('"' :: p.1, p.2)
        else if e = '\\' then (parseStringBody rest2).map fun p => ('\\' :: p.1, p.2)
        else if e = '/' then (parseStringBody rest2).map fun p => ('/' :: p.1, p.2)
        else if e = 'b' then (parseStringBody rest2).map fun p => ('\x08' :: p.1, p.2)
        else if e = 'f' then (parseStringBody rest2).map fun p => ('\x0C' :: p.1, p.2)
        else if e = 'n' then (parseStringBody rest2).map fun p => ('\x0A' :: p.1, p.2)
        else if e = 'r' then (parseStringBody rest2).map fun p => ('\x0D' :: p.1, p.2)
        else if e = 't' then (parseStringBody rest2).map fun p => ('\x09' :: p.1, p.2)
        else if e = 'u' then
          match rest2 with
          | h3 :: h2 :: h1 :: h0 :: rest3 =>
            match parseHex h3, parseHex h2, parseHex h1, parseHex h0 with
            | some a, some b, some c1, some c0 =>
              (parseStringBody rest3).map fun p =>
                (Char.ofNat (((a * 16 + b) * 16 + c1) * 16 + c0) :: p.1, p.2)
            | _, _, _, _ => none
          | _ => none
        else none
    else if c.toNat < 0x20 then none
    else (parseStringBody rest).map fun p => (c :: p.1, p.2)
termination_by structural cs => cs

/-- Accumulate a run of decimal digits, also counting them. -/
def parseDigitsCnt : List Char → Nat → Nat → Nat × Nat × List Char
  | [], acc, n => (acc, n, [])
  | c :: rest, acc, n =>
    if c.isDigit then parseDigitsCnt rest (acc * 10 + (c.toNat - 48)) (n + 1)
    else (acc, n, c :: rest)

/-- The `int` production of the JSON number grammar: a single `0`, or a
nonzero digit followed by digits.  A digit after a leading `0` is left
in the remainder, where it fails the surrounding grammar exactly as the
leading-zero prohibition of `JSON.parse` does. -/
def parseIntPart : List Char → Option (Nat × List Char)
  | [] => none
  | c :: rest =>
    if c = '0' then some (0, rest)
    else if c.isDigit then
      let p := parseDigitsCnt (c :: rest) 0 0
      some (p.1, p.2.2)
    else none

/-- The rational `m * 10 ^ scale`. -/
def ratOfScaled (m : Nat) (scale : Int) : Rat :=
  if 0 ≤ scale then ((m * 10 ^ scale.toNat : Nat) : Rat)
  else mkRat (m : Int) (10 ^ (- scale).toNat)

/-- The magnitude of a JSON number: `int frac? exp?`. -/
def parseNumMag (cs : List Char) : Option (Rat × List Char) :=
  match parseIntPart cs with
  | none => none
  | some (ip, rest1) =>
    let fr : Option (Nat × Nat × List Char) :=
      match rest1 with
      | '.' :: r2 =>
        match r2 with
        | c :: _ =>
          if c.isDigit then
            let p := parseDigitsCnt r2 0 0
            some (p.1, p.2.1, p.2.2)
          else none
        | [] => none
      | _ => some (0, 0, rest1)
    match fr with
    | none => none
    | some (fv, fl, rest2) =>
      let ex : Option (Int × List Char) :=
        match rest2 with
        | e :: r3 =>
          if e = 'e' ∨ e = 'E' then
            match r3 with
            | '+' :: c :: r4 =>
              if c.isDigit then
                let p := parseDigitsCnt (c :: r4) 0 0
                some ((p.1 : Int), p.2.2)
              else none
            | '-' :: c :: r4 =>
              if c.isDigit then
                let p := parseDigitsCnt (c :: r4) 0 0
                some (-(p.1 : Int), p.2.2)
              else none
            | c :: r4 =>
              if c.isDigit then
                let p := parseDigitsCnt (c :: r4) 0 0
                some ((p.1 : Int), p.2.2)
              else none
            | _ => none
          else some (0, rest2)
        | [] => some (0, [])
      match ex with
      | none => none
      | some (e, rest3) =>
        some (ratOfScaled (ip * 10 ^ fl + fv) (e - (fl : Int)), rest3)

/-- Parse a JSON number: optional minus sign, then the magnitude. -/
def parseNumber : List Char → Option (Json × List Char)
  | [] => none
  | '-' :: rest => (parseNumMag rest).map fun p => (Json.num (-p.1), p.2)
  | cs => (parseNumMag cs).map fun p => (Json.num p.1, p.2)

mutual

/-- Fueled recursive-descent JSON value parser.  The caller supplies
fuel at least the input length plus one, which every successful parse
fits in. -/
def parseValue : Nat → List Char → Option (Json × List Char)
  | 0, _ => none
  | _, [] => none
  | fuel + 1, c :: rest =>
    if c = 'n' then
      match rest with
      | 'u' :: 'l' :: 'l' :: r => some (.null, r)
      | _ => none
    else if c = 't' then
      match rest with
      | 'r' :: 'u' :: 'e' :: r => some (.bool true, r)
      | _ => none
    else if c = 'f' then
      match rest with
      | 'a' :: 'l' :: 's' :: 'e' :: r => some (.bool false, r)
      | _ => none
    else if c = '"' then
      (parseStringBody rest).map fun p => (.str ⟨p.1⟩, p.2)
    else if c = '[' then
      match skipWs rest with
      | ']' :: r => some (.arr [], r)
      | r => (parseElems fuel r).map fun p => (.arr p.1, p.2)
    else if c = '{' then
      match skipWs rest with
      | '}' :: r => some (.obj [], r)
      | r => (parseMembers fuel r).map fun p => (.obj p.1, p.2)
    else
      parseNumber (c :: rest)

/-- Parse the comma-separated items of a non-empty JSON array, the
closing bracket included. -/
def parseElems : Nat → List Char → Option (List Json × List Char)
  | 0, _ => none
  | fuel + 1, cs =>
    match parseValue fuel cs with
    | none => none
    | some (v, rest) =>
      match skipWs rest with
      | ',' :: rest2 =>
        match parseElems fuel (skipWs rest2) with
        | some (vs, rest3) => some (v :: vs, rest3)
        | none => none
      | ']' :: rest2 => some ([v], rest2)
      | _ => none

/-- Parse the comma-separated members of a non-empty JSON object, the
closing brace included. -/
def parseMembers : Nat → List Char → Option (List (String × Json) × List Char)
  | 0, _ => none
  | fuel + 1, cs =>
    match cs with
    | '"' :: cs1 =>
      match parseStringBody cs1 with
      | none => none
      | some (k, rest) =>
        match skipWs rest with
        | ':' :: rest1 =>
          match parseValue fuel (skipWs rest1) with
          | none => none
          | some (v, rest2) =>
            match skipWs rest2 with
            | ',' :: rest3 =>
              match parseMembers fuel (skipWs rest3) with
              | some (ms, rest4) => some ((⟨k⟩, v) :: ms, rest4)
              | none => none
            | '}' :: rest3 => some ([(⟨k⟩, v)], rest3)
            | _ => none
        | _ => none
    | _ => none

end

/-- Model of `JSON.parse`: `none` models the `SyntaxError` throw. -/
def Json.parse (s : String) : Option Json :=
  match parseValue (s.data.length + 1) (skipWs s.data) with
  | some (v, rest) => if skipWs rest = [] then some v else none
  | none => none

/-! ## Application state

One record per `useState` group of `App.js`.  `notes` holds `Json`
values: `loadNotes` installs whatever array `JSON.parse` produced, so
elements are not forced to be strings. -/

/-- The joke interaction state: `joke`, `jokeError`, `jokeLoading`. -/
structure JokeState where
  joke : Option Json
  jokeError : String
  jokeLoading : Bool
deriving Repr

/-- The notes interaction state: `noteInput`, `notes`, `notesError`,
`notesLoading`. -/
structure NotesState where
  noteInput : String
  notes : List Json
  notesError : String
  notesLoading : Bool
deriving Repr

/-- The `useState` initial values of the joke interaction. -/
def initialJokeState : JokeState :=
  { joke := none, jokeError := "", jokeLoading := false }

/-- The `useState` initial values of the notes interaction
(`notesLoading` starts `true`). -/
def initialNotesState : NotesState :=
  { noteInput := "", notes := [], notesError := "", notesLoading := true }

/-! ## External effect fates

Each awaited external call is resolved by an explicit outcome argument:
the handler body then runs deterministically. -/

/-- Outcome of `AsyncStorage.getItem(NOTES_KEY)`: the call returns a
value (`null` or a stored string), or throws. -/
inductive GetResult where
  | ok : Option String → GetResult
  | err : GetResult

/-- Outcome of `fetch(JOKE_API_URL)` together with the subsequent body
read: a transport-level failure (the `fetch` promise rejects), or a
response with its `ok` flag and the result of `response.json()`
(`none` when the body read or parse throws). -/
inductive FetchOutcome where
  | netErr : FetchOutcome
  | resp : Bool → Option Json → FetchOutcome

/-- The fixed joke failure message of `handleFetchJoke`. -/
def jokeFetchErrorMsg : String := "Could not fetch a joke. Please try again."

/-! ## The handlers of `App.js` -/

/-- The startup effect `loadNotes` (lines 27–48): read the slot; a
truthy stored string is parsed, an array installs itself as the list, a
non-array forces the list empty with the corrupted message, a parse
throw is caught with the load-failure message, a read throw likewise;
`notesLoading` ends `false` in every case. -/
def loadNotes (g : GetResult) (s : NotesState) : NotesState :=
  match g with
  | .err => { s with notesError := "Failed to load notes", notesLoading := false }
  | .ok none => { s with notesLoading := false }
  | .ok (some stored) =>
    if stored = "" then
      { s with notesLoading := false }
    else
      match Json.parse stored with
      | none =>
        { s with notesError := "Failed to load notes", notesLoading := false }
      | some (Json.arr l) =>
        { s with notes := l, notesLoading := false }
      | some _ =>
        { s with notesError := "Saved notes are corrupted", notes := [],
                 notesLoading := false }

/-- The synchronous first step of `handleFetchJoke` (lines 51–52), run
before the first await: clear the error, set loading. -/
def handleFetchJokeStart (s : JokeState) : JokeState :=
  { s with jokeError := "", jokeLoading := true }

/-- The rest of `handleFetchJoke` (lines 53–64) once the fetch outcome
is known: a rejected fetch, a non-ok response (the `throw`), or a
failed body parse all land in the catch with the fixed message; a
parsed body is stored as the joke; the finally clears loading. -/
def handleFetchJokeFinish (o : FetchOutcome) (s : JokeState) : JokeState :=
  match o with
  | .netErr => { s with jokeError := jokeFetchErrorMsg, jokeLoading := false }
  | .resp ok body =>
    if ok then
      match body with
      | some data => { s with joke := some data, jokeLoading := false }
      | none => { s with jokeError := jokeFetchErrorMsg, jokeLoading := false }
    else
      { s with jokeError := jokeFetchErrorMsg, jokeLoading := false }

/-- One complete run of `handleFetchJoke` under fetch outcome `o`. -/
def handleFetchJoke (o : FetchOutcome) (s : JokeState) : JokeState :=
  handleFetchJokeFinish o (handleFetchJokeStart s)

/-- The blob `saveNotes` writes: `JSON.stringify(updatedNotes)`. -/
def serializeNotes (notes : List Json) : String :=
  Json.stringify (Json.arr notes)

/-- Handler helper `saveNotes` (lines 67–73): attempt
`AsyncStorage.setItem(NOTES_KEY, JSON.stringify(updatedNotes))`; on
success the slot holds the blob, a throw is caught and sets the
save-failure message, leaving the slot as it was. -/
def saveNotes (setOk : Bool) (updatedNotes : List Json) (s : NotesState)
    (slot : Option String) : NotesState × Option String :=
  if setOk then (s, some (serializeNotes updatedNotes))
  else ({ s with notesError := "Failed to save notes" }, slot)

/-- Result of one `handleAddNote` run: the post-state, the post-slot,
and the blob passed to `AsyncStorage.setItem` (`none` when no write
was issued). -/
structure AddResult where
  state : NotesState
  slot : Option String
  attempted : Option String
deriving Repr

/-- Handler `handleAddNote` (lines 75–87): trim the input; a falsy (empty)
trimmed string returns immediately; otherwise append the trimmed text,
clear the input and the error, and run `saveNotes` on the full updated
list. -/
def handleAddNote (setOk : Bool) (s : NotesState) (slot : Option String) :
    AddResult :=
  let trimmed := jsTrim s.noteInput
  if trimmed = "" then ⟨s, slot, none⟩
  else
    let updatedNotes := s.notes ++ [Json.str trimmed]
    let s1 := { s with notes := updatedNotes, noteInput := "", notesError := "" }
    let r := saveNotes setOk updatedNotes s1 slot
    ⟨r.1, r.2, some (serializeNotes updatedNotes)⟩

/-- Handler `handleClearNotes` (lines 89–98): empty the list and the error,
then attempt `AsyncStorage.removeItem(NOTES_KEY)`; on success the slot
is gone, a throw is caught and sets the clear-failure message, leaving
the slot as it was. -/
def handleClearNotes (removeOk : Bool) (s : NotesState)
    (slot : Option String) : NotesState × Option String :=
  let s1 := { s with notes := ([] : List Json), notesError := "" }
  if removeOk then (s1, none)
  else ({ s1 with notesError := "Failed to clear notes" }, slot)

/-! ## Render rules (lines 116–123)

The joke card element is `joke && !jokeLoading ? <View …> : null`: it
is rendered exactly when the joke state holds a truthy value (`null`
initially, and a falsy fetched body such as `null` or `0`, are not
rendered) and loading is off.  The error line `jokeError ? <Text …> :
null` renders independently and does not occlude the card. -/

/-- Whether the joke card is rendered: the JS truthiness test
`joke && !jokeLoading` on the joke state value. -/
def jokeCardVisible (s : JokeState) : Bool :=
  (match s.joke with
   | none => false
   | some j => jsTruthy j) && !s.jokeLoading

/-! ## Combined application state

Used to express that each interaction's failures stay in that
interaction's own error state. -/

/-- The whole screen state: both interactions plus the storage slot. -/
structure AppState where
  jokeSt : JokeState
  notesSt : NotesState
  slot : Option String
deriving Repr

/-- Run `handleFetchJoke` inside the whole screen state. -/
def appFetchJoke (o : FetchOutcome) (a : AppState) : AppState :=
  { a with jokeSt := handleFetchJoke o a.jokeSt }

/-- Run `loadNotes` inside the whole screen state. -/
def appLoadNotes (g : GetResult) (a : AppState) : AppState :=
  { a with notesSt := loadNotes g a.notesSt }

/-- Run `handleAddNote` inside the whole screen state. -/
def appAddNote (setOk : Bool) (a : AppState) : AppState :=
  let r := handleAddNote setOk a.notesSt a.slot
  { a with notesSt := r.state, slot := r.slot }

/-- Run `handleClearNotes` inside the whole screen state. -/
def appClearNotes (removeOk : Bool) (a : AppState) : AppState :=
  let r := handleClearNotes removeOk a.notesSt a.slot
  { a with notesSt := r.1, slot := r.2 }

/-! ## Concrete states used by witnesses -/

/-- A pre-state whose input trims to the non-empty string `Buy milk`. -/
def addWitnessState : NotesState :=
  { noteInput := "  Buy milk ", notes := [Json.str "a"], notesError := "",
    notesLoading := false }

/-- A pre-state whose input is whitespace only, with prior notes, a
prior error and a populated slot. -/
def wsInputState : NotesState :=
  { noteInput := "   ", notes := [Json.str "a"], notesError := "prior",
    notesLoading := false }

/-- The joke state reached by a successful fetch followed by a failed
one: the error is set while the previously fetched joke persists. -/
def jokeAfterFailure : JokeState :=
  handleFetchJoke .netErr
    (handleFetchJoke (.resp true (some (Json.str "setup"))) initialJokeState)

/-! ## Claims -/

/-- C1: for every pre-state and every input whose trimmed form is
non-empty, `handleAddNote` appends exactly the trimmed input at the end
of the in-memory list (length grows by one, the prior elements are kept
in order at the front), and the blob it passes to `setItem` is the
serialization of exactly that full updated list. -/
theorem handleAddNote_appends (s : NotesState) (slot : Option String)
    (setOk : Bool) (h : jsTrim s.noteInput ≠ "") :
    (handleAddNote setOk s slot).state.notes
        = s.notes ++ [Json.str (jsTrim s.noteInput)] ∧
    (handleAddNote setOk s slot).state.notes.length = s.notes.length + 1 ∧
    (handleAddNote setOk s slot).attempted
        = some (serializeNotes (s.notes ++ [Json.str (jsTrim s.noteInput)])) := by
  cases setOk <;> simp [handleAddNote, saveNotes, h]

/-- Witness for C1 at a concrete pre-state. -/
theorem handleAddNote_appends_witness :
    (handleAddNote true addWitnessState none).state.notes
      = addWitnessState.notes ++ [Json.str (jsTrim addWitnessState.noteInput)] :=
  (handleAddNote_appends addWitnessState none true (by decide)).1

/-- C3: for every pre-state and either removal fate, `handleClearNotes`
leaves the in-memory list empty; on removal failure it surfaces the
fixed clear-failure message and the list is still empty. -/
theorem handleClearNotes_empties (s : NotesState) (slot : Option String)
    (removeOk : Bool) :
    (handleClearNotes removeOk s slot).1.notes = [] ∧
    (handleClearNotes false s slot).1.notes = [] ∧
    (handleClearNotes false s slot).1.notesError = "Failed to clear notes" := by
  cases removeOk <;> simp [handleClearNotes]

/-- C5: for every input that trims to the empty string, `handleAddNote`
is a no-op: the state, the slot and the absence of a write attempt are
all as before. -/
theorem handleAddNote_noop (s : NotesState) (slot : Option String)
    (setOk : Bool) (h : jsTrim s.noteInput = "") :
    handleAddNote setOk s slot = ⟨s, slot, none⟩ := by
  simp [handleAddNote, h]

/-- Witness for C5 on the empty input and on a whitespace-only input. -/
theorem handleAddNote_noop_witness :
    handleAddNote true initialNotesState none = ⟨initialNotesState, none, none⟩ ∧
    handleAddNote false wsInputState (some "[\"a\"]")
      = ⟨wsInputState, some "[\"a\"]", none⟩ :=
  ⟨handleAddNote_noop initialNotesState none true (by decide),
   handleAddNote_noop wsInputState (some "[\"a\"]") false (by decide)⟩

/-- C10: a stored empty string is falsy, so `loadNotes` treats it
exactly like an absent slot: the parse step is skipped, the list stays
empty, no error is set and loading ends. -/
theorem loadNotes_emptyString_likeAbsent :
    loadNotes (.ok (some "")) initialNotesState
        = loadNotes (.ok none) initialNotesState ∧
    (loadNotes (.ok (some "")) initialNotesState).notes = [] ∧
    (loadNotes (.ok (some "")) initialNotesState).notesError = "" ∧
    (loadNotes (.ok (some "")) initialNotesState).notesLoading = false :=
  ⟨rfl, rfl, rfl, rfl⟩

/-- C6: `handleFetchJoke` first clears the prior error and raises the
busy flag without touching the joke; at the end the busy flag is down
again, a transport failure, a non-ok response or an unreadable body
each set the fixed message and leave the previously fetched joke value
untouched, and a readable body of an ok response is stored as the
joke with no error. -/
theorem handleFetchJoke_spec (o : FetchOutcome) (s : JokeState) :
    (handleFetchJokeStart s).jokeError = "" ∧
    (handleFetchJokeStart s).jokeLoading = true ∧
    (handleFetchJokeStart s).joke = s.joke ∧
    (handleFetchJoke o s).jokeLoading = false ∧
    (match o with
     | .netErr =>
        (handleFetchJoke o s).jokeError = jokeFetchErrorMsg ∧
        (handleFetchJoke o s).joke = s.joke
     | .resp false _ =>
        (handleFetchJoke o s).jokeError = jokeFetchErrorMsg ∧
        (handleFetchJoke o s).joke = s.joke
     | .resp true none =>
        (handleFetchJoke o s).jokeError = jokeFetchErrorMsg ∧
        (handleFetchJoke o s).joke = s.joke
     | .resp true (some data) =>
        (handleFetchJoke o s).joke = some data ∧
        (handleFetchJoke o s).jokeError = "") := by
  rcases o with _ | ⟨ok, body⟩
  · exact ⟨rfl, rfl, rfl, rfl, rfl, rfl⟩
  · cases ok <;> cases body <;>
      simp [handleFetchJoke, handleFetchJokeStart, handleFetchJokeFinish]

/-- C7 counterexample: after a successful fetch followed by a failed
one, the error is non-empty and the busy flag is down, yet the joke
card is rendered — the render rule `joke && !jokeLoading` does not hide
the stale joke while an error is present. -/
theorem jokeCard_error_counterexample :
    jokeAfterFailure.jokeError ≠ "" ∧
    jokeAfterFailure.jokeLoading = false ∧
    jokeCardVisible jokeAfterFailure = true :=
  ⟨by decide, rfl, rfl⟩

/-- C7 amended: the render rule hides the joke card whenever the joke
interaction is busy, even though the joke value persists in state; a
non-empty error does not hide it — whenever a truthy joke value is held
and loading is off the card is rendered, whatever the error state (and
a falsy fetched body is hidden by the same truthiness test). -/
theorem jokeCardVisible_amended (s : JokeState) (j : Json) :
    (s.jokeLoading = true → jokeCardVisible s = false) ∧
    (s.joke = some j → jsTruthy j = true → s.jokeLoading = false →
      jokeCardVisible s = true) ∧
    (s.joke = some j → jsTruthy j = false → jokeCardVisible s = false) := by
  refine ⟨?_, ?_, ?_⟩
  · intro h
    simp [jokeCardVisible, h]
  · intro h1 h2 h3
    simp [jokeCardVisible, h1, h2, h3]
  · intro h1 h2
    simp [jokeCardVisible, h1, h2]

/-- Witness for the amended C7: with a truthy joke value, a non-empty
error and loading off, the card is rendered. -/
theorem jokeCardVisible_amended_witness :
    jokeCardVisible
      { joke := some (Json.str "setup"), jokeError := jokeFetchErrorMsg,
        jokeLoading := false } = true :=
  (jokeCardVisible_amended
    { joke := some (Json.str "setup"), jokeError := jokeFetchErrorMsg,
      jokeLoading := false } (Json.str "setup")).2.1 rfl rfl rfl

/-- C2: from the initial state, `loadNotes` ends with loading off in
every case, and: an absent slot leaves the list empty with no error; a
stored blob that parses to an array installs that array; a stored blob
that parses to a non-array forces the list empty with the corrupted
message; a read throw or a parse throw leaves the list empty with the
load-failure message (a stored empty string never reaches the parse and
counts as absent). -/
theorem loadNotes_outcomes (g : GetResult) :
    (loadNotes g initialNotesState).notesLoading = false ∧
    (match g with
     | .err =>
        (loadNotes g initialNotesState).notes = [] ∧
        (loadNotes g initialNotesState).notesError = "Failed to load notes"
     | .ok none =>
        (loadNotes g initialNotesState).notes = [] ∧
        (loadNotes g initialNotesState).notesError = ""
     | .ok (some stored) =>
        if stored = "" then
          (loadNotes g initialNotesState).notes = [] ∧
          (loadNotes g initialNotesState).notesError = ""
        else
          match Json.parse stored with
          | some (Json.arr l) =>
              (loadNotes g initialNotesState).notes = l ∧
              (loadNotes g initialNotesState).notesError = ""
          | some _ =>
              (loadNotes g initialNotesState).notes = [] ∧
              (loadNotes g initialNotesState).notesError
                = "Saved notes are corrupted"
          | none =>
              (loadNotes g initialNotesState).notes = [] ∧
              (loadNotes g initialNotesState).notesError
                = "Failed to load notes") := by
  rcases g with ⟨_ | ⟨stored⟩⟩ | _
  · exact ⟨rfl, rfl, rfl⟩
  · by_cases hs : stored = ""
    · subst hs
      exact ⟨rfl, rfl, rfl⟩
    · refine ⟨?_, ?_⟩ <;> simp only [loadNotes, hs, if_neg hs, ite_false]
      · rcases hp : Json.parse stored with _ | v
        · rfl
        · cases v <;> rfl
      · rcases hp : Json.parse stored with _ | v
        · exact ⟨rfl, rfl⟩
        · cases v <;> exact ⟨rfl, rfl⟩
  · exact ⟨rfl, rfl, rfl⟩

/-- C4: from every pre-state, a successful clear leaves the slot absent
with the list empty (absence is the persisted form of the empty list);
a successful add leaves the slot holding the serialization of exactly
the post-state list; and a failed persist during add keeps the
optimistic append (the in-memory list is ahead of the unchanged slot)
and surfaces the fixed save-failure message. -/
theorem notes_persistence_sync (s : NotesState) (slot : Option String) :
    (handleClearNotes true s slot).2 = none ∧
    (handleClearNotes true s slot).1.notes = [] ∧
    (jsTrim s.noteInput ≠ "" →
      (handleAddNote true s slot).slot
          = some (serializeNotes ((handleAddNote true s slot).state.notes)) ∧
      (handleAddNote false s slot).state.notes
          = s.notes ++ [Json.str (jsTrim s.noteInput)] ∧
      (handleAddNote false s slot).state.notesError = "Failed to save notes" ∧
      (handleAddNote false s slot).slot = slot) := by
  refine ⟨rfl, rfl, ?_⟩
  intro h
  simp [handleAddNote, saveNotes, h]

/-- Witness for C4: clear-sync from a blank-input pre-state with prior
notes, error and slot, and add-sync at a non-empty trimmed input. -/
theorem notes_persistence_sync_witness :
    (handleClearNotes true wsInputState (some "[\"a\"]")).2 = none ∧
    (handleAddNote true addWitnessState none).slot
        = some (serializeNotes ((handleAddNote true addWitnessState none).state.notes)) :=
  ⟨(notes_persistence_sync wsInputState (some "[\"a\"]")).1,
   ((notes_persistence_sync addWitnessState none).2.2 (by decide)).1⟩

/-- A concrete whole-screen pre-state used by the C9 witness. -/
def appWitnessState : AppState :=
  { jokeSt := initialJokeState, notesSt := addWitnessState, slot := none }

/-- C9: every failure fate of every operation is caught where it occurs
and mapped to that operation's fixed message in its own interaction's
error state — the storage read throw, the parse throw on a truthy
stored blob, the corrupted (non-array) shape, the persist throw of add,
the removal throw of clear, and all three fetch failures (rejected
transport, non-ok response with any body, unreadable body of an ok
response).  No failure escapes its interaction: a notes failure leaves
the joke state untouched and a joke failure leaves the notes state and
the slot untouched.  (Each handler is a total function of the pre-state
and the effect fate, so no run throws to its caller.) -/
theorem failures_handled_locally (a : AppState) (stored : String)
    (b : Option Json) (v : Json) :
    (stored ≠ "" → Json.parse stored = none →
      (appLoadNotes (.ok (some stored)) a).notesSt.notesError
        = "Failed to load notes") ∧
    (stored ≠ "" → Json.parse stored = some v → v.isArr = false →
      (appLoadNotes (.ok (some stored)) a).notesSt.notesError
        = "Saved notes are corrupted") ∧
    (jsTrim a.notesSt.noteInput ≠ "" →
      (appAddNote false a).notesSt.notesError = "Failed to save notes") ∧
    (appLoadNotes .err a).notesSt.notesError = "Failed to load notes" ∧
    (appClearNotes false a).notesSt.notesError = "Failed to clear notes" ∧
    (appFetchJoke .netErr a).jokeSt.jokeError = jokeFetchErrorMsg ∧
    (appFetchJoke (.resp false b) a).jokeSt.jokeError = jokeFetchErrorMsg ∧
    (appFetchJoke (.resp true none) a).jokeSt.jokeError = jokeFetchErrorMsg ∧
    (appLoadNotes .err a).jokeSt = a.jokeSt ∧
    (appLoadNotes (.ok (some stored)) a).jokeSt = a.jokeSt ∧
    (appAddNote false a).jokeSt = a.jokeSt ∧
    (appAddNote false a).slot = a.slot ∧
    (appClearNotes false a).jokeSt = a.jokeSt ∧
    (appFetchJoke .netErr a).notesSt = a.notesSt ∧
    (appFetchJoke .netErr a).slot = a.slot ∧
    (appFetchJoke (.resp false b) a).notesSt = a.notesSt ∧
    (appFetchJoke (.resp false b) a).slot = a.slot ∧
    (appFetchJoke (.resp true none) a).notesSt = a.notesSt ∧
    (appFetchJoke (.resp true none) a).slot = a.slot := by
  refine ⟨?_, ?_, ?_, rfl, rfl, rfl, rfl, rfl, rfl, rfl, rfl, ?_, rfl, rfl,
    rfl, rfl, rfl, rfl, rfl⟩
  · intro h1 h2
    simp [appLoadNotes, loadNotes, h1, h2]
  · intro h1 h2 h3
    cases v with
    | arr l => simp [Json.isArr] at h3
    | null => simp [appLoadNotes, loadNotes, h1, h2]
    | bool c => simp [appLoadNotes, loadNotes, h1, h2]
    | num q => simp [appLoadNotes, loadNotes, h1, h2]
    | str t => simp [appLoadNotes, loadNotes, h1, h2]
    | obj ms => simp [appLoadNotes, loadNotes, h1, h2]
  · intro h
    simp [appAddNote, handleAddNote, saveNotes, h]
  · by_cases h : jsTrim a.notesSt.noteInput = "" <;>
      simp [appAddNote, handleAddNote, saveNotes, h]

/-- Witness for C9: the parse-throw fate at the unparseable stored blob
`nope`, the corrupted fate at the valid non-array blob `true`, and the
failed-persist fate at a non-empty trimmed input, all at a concrete
whole-screen state. -/
theorem failures_handled_locally_witness :
    (appLoadNotes (.ok (some "nope")) appWitnessState).notesSt.notesError
      = "Failed to load notes" ∧
    (appLoadNotes (.ok (some "true")) appWitnessState).notesSt.notesError
      = "Saved notes are corrupted" ∧
    (appAddNote false appWitnessState).notesSt.notesError
      = "Failed to save notes" := by
  obtain ⟨h1, -, h3, -⟩ :=
    failures_handled_locally appWitnessState "nope" none Json.null
  obtain ⟨-, h2, -⟩ :=
    failures_handled_locally appWitnessState "true" none (Json.bool true)
  exact ⟨h1 (by decide) rfl, h2 (by decide) rfl rfl, h3 (by decide)⟩

/-! ## Round-trip of the persistence encoding (C8)

The blob `saveNotes` writes is `JSON.stringify` of the notes array;
`loadNotes` recovers it with `JSON.parse`.  The lemmas below show the
parser inverts the emitter on such blobs. -/

/-- Skipping whitespace leaves a list whose head is not whitespace
alone. -/
theorem skipWs_not (c : Char) (h : isJsonWs c = false) (t : List Char) :
    skipWs (c :: t) = c :: t := by
  simp [skipWs, h]

/-- The hexadecimal digit emitter and reader invert each other. -/
theorem parseHex_hexDigit : ∀ k, k < 16 → parseHex (hexDigit k) = some k := by
  decide

/-- Reading a closing quote. -/
theorem psb_done (t : List Char) : parseStringBody ('"' :: t) = some ([], t) := by
  rw [parseStringBody.eq_def]
  rfl

/-- Reading an escaped quote. -/
theorem psb_esc_quote (t : List Char) :
    parseStringBody ('\\' :: '"' :: t)
      = (parseStringBody t).map fun p => ('"' :: p.1, p.2) := by
  rw [parseStringBody.eq_def]
  rfl

/-- Reading an escaped backslash. -/
theorem psb_esc_backslash (t : List Char) :
    parseStringBody ('\\' :: '\\' :: t)
      = (parseStringBody t).map fun p => ('\\' :: p.1, p.2) := by
  rw [parseStringBody.eq_def]
  rfl

/-- Reading an escaped backspace. -/
theorem psb_esc_b (t : List Char) :
    parseStringBody ('\\' :: 'b' :: t)
      = (parseStringBody t).map fun p => ('\x08' :: p.1, p.2) := by
  rw [parseStringBody.eq_def]
  rfl

/-- Reading an escaped tab. -/
theorem psb_esc_t (t : List Char) :
    parseStringBody ('\\' :: 't' :: t)
      = (parseStringBody t).map fun p => ('\x09' :: p.1, p.2) := by
  rw [parseStringBody.eq_def]
  rfl

/-- Reading an escaped line feed. -/
theorem psb_esc_n (t : List Char) :
    parseStringBody ('\\' :: 'n' :: t)
      = (parseStringBody t).map fun p => ('\x0A' :: p.1, p.2) := by
  rw [parseStringBody.eq_def]
  rfl

/-- Reading an escaped form feed. -/
theorem psb_esc_f (t : List Char) :
    parseStringBody ('\\' :: 'f' :: t)
      = (parseStringBody t).map fun p => ('\x0C' :: p.1, p.2) := by
  rw [parseStringBody.eq_def]
  rfl

/-- Reading an escaped carriage return. -/
theorem psb_esc_r (t : List Char) :
    parseStringBody ('\\' :: 'r' :: t)
      = (parseStringBody t).map fun p => ('\x0D' :: p.1, p.2) := by
  rw [parseStringBody.eq_def]
  rfl

/-- Shape of reading a `\u` escape: the four digit reads decide the
outcome. -/
theorem psb_esc_u_shape (h3 h2 h1 h0 : Char) (t : List Char) :
    parseStringBody ('\\' :: 'u' :: h3 :: h2 :: h1 :: h0 :: t)
      = (match parseHex h3, parseHex h2, parseHex h1, parseHex h0 with
         | some a, some b, some c1, some c0 =>
            (parseStringBody t).map fun p =>
              (Char.ofNat (((a * 16 + b) * 16 + c1) * 16 + c0) :: p.1, p.2)
         | _, _, _, _ => none) := by
  rw [parseStringBody.eq_def]
  rfl

/-- Reading a `\u` escape whose four digits are all readable. -/
theorem psb_esc_u_ok (h3 h2 h1 h0 : Char) (a b c1 c0 : Nat) (t : List Char)
    (e3 : parseHex h3 = some a) (e2 : parseHex h2 = some b)
    (e1 : parseHex h1 = some c1) (e0 : parseHex h0 = some c0) :
    parseStringBody ('\\' :: 'u' :: h3 :: h2 :: h1 :: h0 :: t)
      = (parseStringBody t).map fun p =>
          (Char.ofNat (((a * 16 + b) * 16 + c1) * 16 + c0) :: p.1, p.2) := by
  rw [psb_esc_u_shape, e3, e2, e1, e0]

/-- Reading back the `\u00--` escape the emitter produces for a code
point below 32. -/
theorem psb_esc_u (k : Nat) (hk : k < 32) (t : List Char) :
    parseStringBody
        ('\\' :: 'u' :: '0' :: '0' :: hexDigit (k / 16) :: hexDigit (k % 16) :: t)
      = (parseStringBody t).map fun p => (Char.ofNat k :: p.1, p.2) := by
  have g1 : parseHex (hexDigit (k / 16)) = some (k / 16) :=
    parseHex_hexDigit _ (by omega)
  have g2 : parseHex (hexDigit (k % 16)) = some (k % 16) :=
    parseHex_hexDigit _ (by omega)
  rw [psb_esc_u_ok '0' '0' _ _ 0 0 (k / 16) (k % 16) t rfl rfl g1 g2]
  rw [show ((0 * 16 + 0) * 16 + k / 16) * 16 + k % 16 = k by omega]

/-- Reading a plain (unescaped) character. -/
theorem psb_plain (c : Char) (h1 : c ≠ '"') (h2 : c ≠ '\\')
    (h3 : ¬ c.toNat < 0x20) (t : List Char) :
    parseStringBody (c :: t)
      = (parseStringBody t).map fun p => (c :: p.1, p.2) := by
  rw [parseStringBody.eq_def]
  simp [h1, h2, h3]

/-- The string-body reader inverts the string-content emitter: decoding
the escaped content followed by the closing quote recovers the original
characters and the remaining input. -/
theorem parseStringBody_encodeContent (cs : List Char) (rest : List Char) :
    parseStringBody (encodeContent cs ++ '"' :: rest) = some (cs, rest) := by
  induction cs with
  | nil =>
    rw [show encodeContent [] = [] from rfl, List.nil_append, psb_done]
  | cons c cs ih =>
    rw [show encodeContent (c :: cs) = encodeChar c ++ encodeContent cs from by
          simp [encodeContent],
        List.append_assoc]
    by_cases h1 : c = '"'
    · subst h1
      rw [show encodeChar '"' = ['\\', '"'] from rfl]
      simp only [List.cons_append, List.nil_append, psb_esc_quote, ih]
      rfl
    · by_cases h2 : c = '\\'
      · subst h2
        rw [show encodeChar '\\' = ['\\', '\\'] from rfl]
        simp only [List.cons_append, List.nil_append, psb_esc_backslash, ih]
        rfl
      · by_cases h3 : c = '\x08'
        · subst h3
          rw [show encodeChar '\x08' = ['\\', 'b'] from rfl]
          simp only [List.cons_append, List.nil_append, psb_esc_b, ih]
          rfl
        · by_cases h4 : c = '\x09'
          · subst h4
            rw [show encodeChar '\x09' = ['\\', 't'] from rfl]
            simp only [List.cons_append, List.nil_append, psb_esc_t, ih]
            rfl
          · by_cases h5 : c = '\x0A'
            · subst h5
              rw [show encodeChar '\x0A' = ['\\', 'n'] from rfl]
              simp only [List.cons_append, List.nil_append, psb_esc_n, ih]
              rfl
            · by_cases h6 : c = '\x0C'
              · subst h6
                rw [show encodeChar '\x0C' = ['\\', 'f'] from rfl]
                simp only [List.cons_append, List.nil_append, psb_esc_f, ih]
                rfl
              · by_cases h7 : c = '\x0D'
                · subst h7
                  rw [show encodeChar '\x0D' = ['\\', 'r'] from rfl]
                  simp only [List.cons_append, List.nil_append, psb_esc_r, ih]
                  rfl
                · by_cases h8 : c.toNat < 0x20
                  · rw [show encodeChar c
                          = ['\\', 'u', '0', '0', hexDigit (c.toNat / 16),
                             hexDigit (c.toNat % 16)] from by
                        simp [encodeChar, h1, h2, h3, h4, h5, h6, h7, h8]]
                    simp only [List.cons_append, List.nil_append,
                      psb_esc_u c.toNat h8, ih, Char.ofNat_toNat]
                    rfl
                  · rw [show encodeChar c = [c] from by
                        simp [encodeChar, h1, h2, h3, h4, h5, h6, h7, h8]]
                    simp only [List.cons_append, List.nil_append,
                      psb_plain c h1 h2 h8, ih]
                    rfl

/-- Unfolding of `parseValue` at an opening quote. -/
theorem pv_quote (fuel : Nat) (t : List Char) :
    parseValue (fuel + 1) ('"' :: t)
      = (parseStringBody t).map fun p => (Json.str ⟨p.1⟩, p.2) := rfl

/-- Unfolding of `parseValue` at an opening bracket. -/
theorem pv_arr (fuel : Nat) (t : List Char) :
    parseValue (fuel + 1) ('[' :: t)
      = (match skipWs t with
         | ']' :: r => some (Json.arr [], r)
         | r => (parseElems fuel r).map fun p => (Json.arr p.1, p.2)) := rfl

/-- At an opening bracket whose inside starts with a quote, the value
reader hands over to the element reader. -/
theorem pv_arr_push (f : Nat) (t u : List Char) (h : skipWs t = '"' :: u) :
    parseValue (f + 1) ('[' :: t)
      = (parseElems f ('"' :: u)).map fun p => (Json.arr p.1, p.2) := by
  simp only [pv_arr, h]
  rfl

/-- Unfolding of `parseElems` with positive fuel. -/
theorem pe_unfold (fuel : Nat) (cs : List Char) :
    parseElems (fuel + 1) cs
      = (match parseValue fuel cs with
         | none => none
         | some (v, rest) =>
           match skipWs rest with
           | ',' :: rest2 =>
             (match parseElems fuel (skipWs rest2) with
              | some (vs, rest3) => some (v :: vs, rest3)
              | none => none)
           | ']' :: rest2 => some ([v], rest2)
           | _ => none) := rfl

/-- The element reader on a last element followed by the closing
bracket. -/
theorem pe_last (f : Nat) (cs : List Char) (v : Json) (out : List Char)
    (h1 : parseValue f cs = some (v, ']' :: out)) :
    parseElems (f + 1) cs = some ([v], out) := by
  simp only [pe_unfold, h1, skipWs_not ']' (by decide) out]

/-- The element reader on an element followed by a comma and further
elements. -/
theorem pe_step (f : Nat) (cs tail : List Char) (v : Json) (vs : List Json)
    (out : List Char)
    (h1 : parseValue f cs = some (v, ',' :: tail))
    (h2 : parseElems f (skipWs tail) = some (vs, out)) :
    parseElems (f + 1) cs = some (v :: vs, out) := by
  simp only [pe_unfold, h1, skipWs_not ',' (by decide) tail, h2]

/-- Equation of `encodeItems` on a single item. -/
theorem ei_one (x : Json) : encodeItems [x] = encodeJson x := by
  simp [encodeItems]

/-- Equation of `encodeItems` on two or more items. -/
theorem ei_cons (x y : Json) (ys : List Json) :
    encodeItems (x :: y :: ys) = encodeJson x ++ ',' :: encodeItems (y :: ys) := by
  simp [encodeItems]

/-- Equation of `encodeJson` on a string. -/
theorem ej_str (s : String) : encodeJson (Json.str s) = encodeString s := by
  simp [encodeJson]

/-- Equation of `encodeJson` on an array. -/
theorem ej_arr (xs : List Json) :
    encodeJson (Json.arr xs) = '[' :: (encodeItems xs ++ [']']) := by
  simp [encodeJson]

/-- A stringified string followed by anything starts with a quote. -/
theorem es_append (x : String) (z : List Char) :
    encodeString x ++ z = '"' :: (encodeContent x.data ++ '"' :: z) := by
  simp [encodeString]

/-- The value reader recovers a stringified string. -/
theorem pv_string (fuel : Nat) (s : String) (rest : List Char) :
    parseValue (fuel + 1) (encodeString s ++ rest) = some (Json.str s, rest) := by
  rw [es_append, pv_quote, parseStringBody_encodeContent]
  rfl

/-- Stringified items of a string-headed array start with a quote. -/
theorem ei_strings_shape (s : String) (xs : List Json) :
    ∃ t, encodeItems (Json.str s :: xs) = '"' :: t := by
  cases xs with
  | nil =>
    exact ⟨encodeContent s.data ++ '"' :: [],
      by rw [ei_one, ej_str, encodeString]⟩
  | cons y ys =>
    exact ⟨encodeContent s.data ++ '"' :: ',' :: encodeItems (y :: ys),
      by rw [ei_cons, ej_str, es_append]⟩

/-- No whitespace precedes the items of a string-headed array. -/
theorem skipWs_ei (s : String) (xs : List Json) (r : List Char) :
    skipWs (encodeItems (Json.str s :: xs) ++ r)
      = encodeItems (Json.str s :: xs) ++ r := by
  obtain ⟨t, ht⟩ := ei_strings_shape s xs
  rw [ht, List.cons_append]
  exact skipWs_not '"' (by decide) _

/-- The element reader recovers the stringified items of a non-empty
array of strings, given fuel beyond the item count. -/
theorem parseElems_strings (l : List String) :
    ∀ (s : String) (fuel : Nat) (rest : List Char), l.length + 2 ≤ fuel →
      parseElems fuel (encodeItems (Json.str s :: l.map Json.str) ++ ']' :: rest)
        = some (Json.str s :: l.map Json.str, rest) := by
  induction l with
  | nil =>
    intro s fuel rest hf
    obtain ⟨f, rfl⟩ : ∃ f, fuel = f + 1 := ⟨fuel - 1, by omega⟩
    obtain ⟨g, rfl⟩ : ∃ g, f = g + 1 := ⟨f - 1, by omega⟩
    rw [List.map_nil, ei_one, ej_str]
    exact pe_last (g + 1) _ _ _ (pv_string g s (']' :: rest))
  | cons s2 l2 ih =>
    intro s fuel rest hf
    obtain ⟨f, rfl⟩ : ∃ f, fuel = f + 1 := ⟨fuel - 1, by omega⟩
    obtain ⟨g, rfl⟩ : ∃ g, f = g + 1 := ⟨f - 1, by omega⟩
    rw [List.map_cons, ei_cons, ej_str, List.append_assoc, List.cons_append]
    refine pe_step (g + 1) _ _ _ _ _ (pv_string g s _) ?_
    rw [skipWs_ei]
    refine ih s2 (g + 1) rest ?_
    simp only [List.length_cons] at hf
    omega

/-- The stringified items of a string-headed array are at least as many
characters as there are trailing items. -/
theorem ei_strings_length (l : List String) :
    ∀ s : String, l.length ≤ (encodeItems (Json.str s :: l.map Json.str)).length := by
  induction l with
  | nil => intro s; exact Nat.zero_le _
  | cons y ys ih =>
    intro s
    rw [List.map_cons, ei_cons, ej_str]
    simp only [List.length_append, List.length_cons]
    have := ih y
    omega

/-- C8: the persistence encoding round-trips.  For every list of
strings, `JSON.parse` of the `JSON.stringify` blob `saveNotes` would
write recovers exactly that array, and feeding the blob through
`loadNotes` installs exactly that ordered list of notes — the empty
list included. -/
theorem notes_roundTrip (l : List String) :
    Json.parse (serializeNotes (l.map Json.str)) = some (Json.arr (l.map Json.str)) ∧
    (loadNotes (GetResult.ok (some (serializeNotes (l.map Json.str))))
        initialNotesState).notes = l.map Json.str := by
  have hparse : Json.parse (serializeNotes (l.map Json.str))
      = some (Json.arr (l.map Json.str)) := by
    cases l with
    | nil => rfl
    | cons s l2 =>
      rw [List.map_cons]
      have hdata : (serializeNotes (Json.str s :: l2.map Json.str)).data
          = '[' :: (encodeItems (Json.str s :: l2.map Json.str) ++ [']']) := by
        show encodeJson (Json.arr (Json.str s :: l2.map Json.str)) = _
        rw [ej_arr]
      obtain ⟨t0, ht0⟩ := ei_strings_shape s (l2.map Json.str)
      have hsk2 : skipWs (encodeItems (Json.str s :: l2.map Json.str) ++ [']'])
          = '"' :: (t0 ++ [']']) := by
        rw [skipWs_ei, ht0, List.cons_append]
      have hlen : ('[' :: (encodeItems (Json.str s :: l2.map Json.str) ++ [']'])).length
          = (encodeItems (Json.str s :: l2.map Json.str)).length + 2 := by
        simp
      have hv : parseValue
            ((encodeItems (Json.str s :: l2.map Json.str)).length + 2 + 1)
            ('[' :: (encodeItems (Json.str s :: l2.map Json.str) ++ [']']))
          = some (Json.arr (Json.str s :: l2.map Json.str), []) := by
        rw [pv_arr_push _ _ _ hsk2]
        rw [show ('"' : Char) :: (t0 ++ [']'])
              = encodeItems (Json.str s :: l2.map Json.str) ++ ']' :: []
            from by rw [ht0, List.cons_append]]
        rw [parseElems_strings l2 s _ []
              (by have := ei_strings_length l2 s; omega)]
        rfl
      simp only [Json.parse, hdata, hlen]
      rw [skipWs_not '[' (by decide), hv]
      rfl
  have hne : serializeNotes (l.map Json.str) ≠ "" := by
    intro h
    have h2 := congrArg String.data h
    rw [show (serializeNotes (l.map Json.str)).data
          = encodeJson (Json.arr (l.map Json.str)) from rfl, ej_arr] at h2
    simp at h2
  refine ⟨hparse, ?_⟩
  simp only [loadNotes]
  rw [if_neg hne, hparse]
